/-
Verification of the AetherVault hot-memory store and its extraction
pipeline against the natural-language specification.

The definitions below are a shallow embedding of the Python sources:
  hooks/hot_memory_store.py   (record store: read/write/append/invalidate/
                               update/prune, decay and recency curves)
  hooks/memory-scorer.py      (reinforcement on access)
  hooks/memory-extractor.py   (extraction/reconciliation pipeline)
  scripts/memory-linter.py    (quality linter exit-code logic)

Records are modelled as a structure with optional fields mirroring the
JSON documents; external collaborators (capsule search, the reasoning
service) are modelled as oracle parameters; wall-clock timestamps are
passed in as explicit arguments; real-valued float formulas are modelled
over the reals.
-/
import Mathlib

/-! ## Configuration constants (hot_memory_store.py, memory-extractor.py) -/

def MAX_HOT_MEMORIES : Nat := 200
def MAX_PINNED_MEMORIES : Nat := 50

noncomputable def LAMBDA_BASE : ℝ := 0.1
noncomputable def MU : ℝ := 2.0
noncomputable def BETA_LTM : ℝ := 0.8
noncomputable def BETA_STM : ℝ := 1.2
noncomputable def PROMOTE_THRESHOLD : ℝ := 0.7

noncomputable def REINFORCE_DELTA : ℝ := 0.15
noncomputable def REINFORCE_N : ℝ := 5

def HOT_PATH_IMPORTANCE_THRESHOLD : Int := 5
def MAX_ADDITIONS_PER_HOUR : Int := 5
def MIN_FACT_LENGTH : Nat := 20

/-! ## Data model

A hot-memory record is one JSONL line `{"fact": ..., "metadata": {...}}`.
Metadata fields the Python code reads with `.get` defaults are modelled
as `Option` fields (`none` = key absent or JSON null). -/

structure MemoryRecord where
  fact : String := ""
  category : Option String := none
  importance : Option Int := none
  importance_normalized : Option ℚ := none
  created_at : Option String := none
  last_accessed : Option String := none
  access_count : Option Int := none
  decay_strength : Option ℚ := none
  decay_layer : Option String := none
  t_valid : Option String := none
  t_invalid : Option String := none
  source : Option String := none
  entities : List String := []
  pinned : Bool := false
  updated_from : Option String := none
  deriving Repr, DecidableEq

/-- Python truthiness of the `t_invalid` field: `None` and `""` are falsy. -/
def tInvalidTruthy : Option String → Bool
  | none => false
  | some s => s ≠ ""

/-- Python substring containment on char lists: `needle in hay`. -/
def subOfAux (needle : List Char) : List Char → Bool
  | [] => needle.isEmpty
  | c :: rest => needle.isPrefixOf (c :: rest) || subOfAux needle rest

/-- Python `needle in hay` on strings. -/
def pyIn (needle hay : String) : Bool :=
  subOfAux needle.toList hay.toList

/-- Python `str.lower()` (ASCII case folding, as `str.lower` acts on the
characters of these records). -/
def pyLower (s : String) : String :=
  String.mk (s.toList.map Char.toLower)

/-- Python `str.strip()`: drop leading and trailing whitespace. -/
def pyStrip (s : String) : String :=
  String.mk
    (((s.toList.dropWhile Char.isWhitespace).reverse.dropWhile
      Char.isWhitespace).reverse)

/-- Python `str.rstrip()`: drop trailing whitespace. -/
def pyRStrip (s : String) : String :=
  String.mk ((s.toList.reverse.dropWhile Char.isWhitespace).reverse)

/-- `text.rstrip().endswith("?")`. -/
def endsWithQmark (s : String) : Bool :=
  (pyRStrip s).toList.getLast? = some (Char.ofNat 63)

/-- Python `str.split()` with no separator: split on whitespace runs,
discarding empty pieces. -/
def splitWSAux : List Char → List Char → List String
  | [], acc => if acc.isEmpty then [] else [String.mk acc.reverse]
  | c :: rest, acc =>
    if c.isWhitespace then
      if acc.isEmpty then splitWSAux rest []
      else String.mk acc.reverse :: splitWSAux rest []
    else splitWSAux rest (c :: acc)

def pySplit (s : String) : List String :=
  splitWSAux s.toList []

/-! ## Record store (hot_memory_store.py) -/

/-- `write_hot_memories`: eviction with archive, pinned memory cap, atomic
rename.  The capacity/eviction logic runs only when the input exceeds
`MAX_HOT_MEMORIES`; the result is the list of records persisted to the
JSONL file (one record per line).  Python slices `l[:-k]` / `l[-k:]`
become `take (len - k)` / `drop (len - k)`. -/
def write_hot_memories (memories : List MemoryRecord) : List MemoryRecord :=
  if memories.length > MAX_HOT_MEMORIES then
    let pinned := memories.filter fun m => m.pinned
    let unpinned := memories.filter fun m => !m.pinned
    let pinned2 :=
      if pinned.length > MAX_PINNED_MEMORIES then
        pinned.drop (pinned.length - MAX_PINNED_MEMORIES)
      else pinned
    let budget : Int := (MAX_HOT_MEMORIES : Int) - pinned2.length
    let unpinned2 :=
      if budget > 0 ∧ (unpinned.length : Int) > budget then
        unpinned.drop (unpinned.length - budget.toNat)
      else unpinned
    pinned2 ++ unpinned2
  else memories

/-- The 10MB safety limit of `read_hot_memories`. -/
def MAX_FILE_BYTES : Nat := 10 * 1024 * 1024

/-- One line of the on-disk JSONL store file: its byte length (the
length of `json.dumps(mem) + "\n"` as written) and its parse result
(`none` = corrupt JSON). -/
structure StoreLine where
  bytes : Nat
  parsed : Option MemoryRecord

/-- `read_hot_memories`: refuse to load (return the empty list) when the
file size exceeds the 10MB safety limit — the file size is the sum of
the line byte lengths; otherwise parse each line, skipping and counting
corrupt lines rather than failing the whole read. -/
def read_hot_memories (lines : List StoreLine) : List MemoryRecord :=
  if (lines.map fun ln => ln.bytes).sum > MAX_FILE_BYTES then []
  else lines.filterMap fun ln => ln.parsed

/-- `append_hot_memory`: duplicate guard (exact fact text, case-insensitive,
against non-invalidated records) then append and persist. -/
def append_hot_memory (fact_text : String) (metadata : MemoryRecord)
    (memories : List MemoryRecord) : List MemoryRecord :=
  let factLower := pyLower (pyStrip fact_text)
  if memories.any fun m =>
      pyLower (pyStrip m.fact) = factLower && !tInvalidTruthy m.t_invalid then
    memories
  else
    write_hot_memories (memories ++ [{ metadata with fact := fact_text }])

/-- The per-record marking step of `invalidate_hot_memory` /
`update_hot_memory`: set `t_invalid = now` when the target text occurs
case-insensitively in the fact text. -/
def markInvalid (target_fact now_iso : String) (m : MemoryRecord) : MemoryRecord :=
  if pyIn (pyLower target_fact) (pyLower m.fact) then
    { m with t_invalid := some now_iso }
  else m

/-- `invalidate_hot_memory`: mark every matching record invalid; persist
only if at least one record matched. -/
def invalidate_hot_memory (target_fact now_iso : String)
    (memories : List MemoryRecord) : List MemoryRecord :=
  let invalidated := memories.countP fun m => pyIn (pyLower target_fact) (pyLower m.fact)
  if invalidated > 0 then
    write_hot_memories (memories.map (markInvalid target_fact now_iso))
  else memories

/-- `update_hot_memory`: invalidate old entry, append new one, persist
unconditionally. -/
def update_hot_memory (old_fact new_fact : String) (metadata : MemoryRecord)
    (now_iso : String) (memories : List MemoryRecord) : List MemoryRecord :=
  write_hot_memories
    ((memories.map (markInvalid old_fact now_iso)) ++ [{ metadata with fact := new_fact }])

/-- `prune_invalidated`: drop condition for one record.  `t_invalid` must be
truthy (present and non-empty), parse successfully, and be older than the
cutoff; any parse failure keeps the record. `parse` abstracts
`datetime.fromisoformat` (`none` = ValueError/TypeError), `cutoff` the
instant `now - max_age_hours`. -/
def prunable (parse : String → Option Int) (cutoff : Int) (m : MemoryRecord) : Bool :=
  match m.t_invalid with
  | none => false
  | some s =>
    if s = "" then false
    else
      match parse s with
      | none => false
      | some t => t < cutoff

/-- `prune_invalidated`: keep non-prunable records; persist only when at
least one record was pruned. -/
def prune_invalidated (parse : String → Option Int) (cutoff : Int)
    (memories : List MemoryRecord) : List MemoryRecord :=
  let keep := memories.filter fun m => !prunable parse cutoff m
  let pruned := memories.countP (prunable parse cutoff)
  if pruned > 0 then write_hot_memories keep else memories

/-! ## Basic store lemmas -/

theorem write_hot_memories_of_le (memories : List MemoryRecord)
    (h : memories.length ≤ MAX_HOT_MEMORIES) :
    write_hot_memories memories = memories := by
  unfold write_hot_memories
  simp [Nat.not_lt.mpr h]

theorem write_hot_memories_length_le (memories : List MemoryRecord)
    (h : MAX_HOT_MEMORIES < memories.length) :
    (write_hot_memories memories).length ≤ MAX_HOT_MEMORIES := by
  unfold write_hot_memories
  rw [if_pos (by exact h)]
  simp only [List.length_append]
  set pinned := memories.filter fun m => m.pinned with hp
  set unpinned := memories.filter fun m => !m.pinned with hu
  by_cases hplen : pinned.length > MAX_PINNED_MEMORIES
  · rw [if_pos hplen]
    have hlen2 : (pinned.drop (pinned.length - MAX_PINNED_MEMORIES)).length
        = MAX_PINNED_MEMORIES := by
      rw [List.length_drop]
      omega
    rw [hlen2]
    set budget : Int := (MAX_HOT_MEMORIES : Int) - (MAX_PINNED_MEMORIES : Nat)
    by_cases hb : budget > 0 ∧ (unpinned.length : Int) > budget
    · rw [if_pos hb]
      rw [List.length_drop]
      have h1 : budget.toNat ≤ unpinned.length := by
        rcases hb with ⟨hb1, hb2⟩
        omega
      omega
    · rw [if_neg hb]
      rcases not_and_or.mp hb with hb1 | hb2
      · exfalso
        apply hb1
        show (0 : Int) < (MAX_HOT_MEMORIES : Int) - (MAX_PINNED_MEMORIES : Nat)
        norm_num [MAX_HOT_MEMORIES, MAX_PINNED_MEMORIES]
      · have : (unpinned.length : Int) ≤ budget := not_lt.mp hb2
        have : unpinned.length ≤ MAX_HOT_MEMORIES - MAX_PINNED_MEMORIES := by omega
        omega
  · rw [if_neg hplen]
    push_neg at hplen
    set budget : Int := (MAX_HOT_MEMORIES : Int) - pinned.length
    by_cases hb : budget > 0 ∧ (unpinned.length : Int) > budget
    · rw [if_pos hb]
      rw [List.length_drop]
      rcases hb with ⟨hb1, hb2⟩
      omega
    · rw [if_neg hb]
      rcases not_and_or.mp hb with hb1 | hb2
      · exfalso
        apply hb1
        show (0 : Int) < (MAX_HOT_MEMORIES : Int) - pinned.length
        have : pinned.length ≤ MAX_PINNED_MEMORIES := hplen
        norm_num [MAX_HOT_MEMORIES, MAX_PINNED_MEMORIES] at *
        omega
      · have : (unpinned.length : Int) ≤ budget := not_lt.mp hb2
        omega

theorem write_hot_memories_length_le' (memories : List MemoryRecord) :
    (write_hot_memories memories).length ≤ max memories.length MAX_HOT_MEMORIES := by
  by_cases h : memories.length ≤ MAX_HOT_MEMORIES
  · rw [write_hot_memories_of_le memories h]
    exact le_max_left _ _
  · push_neg at h
    exact le_trans (write_hot_memories_length_le memories h) (le_max_right _ _)

theorem mem_of_mem_write_hot_memories {m : MemoryRecord}
    {memories : List MemoryRecord} (h : m ∈ write_hot_memories memories) :
    m ∈ memories := by
  unfold write_hot_memories at h
  by_cases hlen : memories.length > MAX_HOT_MEMORIES
  · rw [if_pos hlen] at h
    simp only [List.mem_append] at h
    rcases h with h | h
    · have hmem : m ∈ memories.filter fun m => m.pinned := by
        by_cases hp : (memories.filter fun m => m.pinned).length > MAX_PINNED_MEMORIES
        · rw [if_pos hp] at h
          exact List.mem_of_mem_drop h
        · rw [if_neg hp] at h
          exact h
      exact List.mem_of_mem_filter hmem
    · have hmem : m ∈ memories.filter fun m => !m.pinned := by
        split at h
        · split at h
          · exact List.mem_of_mem_drop h
          · exact h
        · split at h
          · exact List.mem_of_mem_drop h
          · exact h
      exact List.mem_of_mem_filter hmem
  · rw [if_neg hlen] at h
    exact h

/-! ## Sample records used by concrete witnesses and counterexamples -/

def pinnedSample : MemoryRecord :=
  { fact := "pinned sample fact text", pinned := true }

def plainSample : MemoryRecord :=
  { fact := "plain sample fact text" }

/-! ## Claim C1: capacity invariants after write_all -/

theorem countP_pinned_eq_zero (l : List MemoryRecord)
    (hl : ∀ m ∈ l, m.pinned = false) :
    l.countP (fun m => m.pinned) = 0 :=
  List.countP_eq_zero.mpr (by intro a ha; simp [hl a ha])

theorem pinned_false_of_mem_filter_not {m : MemoryRecord}
    {ms : List MemoryRecord} (h : m ∈ ms.filter fun m => !m.pinned) :
    m.pinned = false := by
  have := List.of_mem_filter h
  simpa using this

/-- C1 (amended): after any `write_hot_memories` call the persisted store
has at most `MAX_TOTAL` (200) records, and at most `MAX_PINNED` (50)
pinned records whenever the input exceeded 200 records; an input of at
most 200 records is persisted unchanged, so its pinned count is not
capped. -/
theorem C1_write_all_capacity_amended :
    (∀ ms : List MemoryRecord,
      (write_hot_memories ms).length ≤ MAX_HOT_MEMORIES) ∧
    (∀ ms : List MemoryRecord, MAX_HOT_MEMORIES < ms.length →
      (write_hot_memories ms).countP (fun m => m.pinned) ≤ MAX_PINNED_MEMORIES) := by
  constructor
  · intro ms
    by_cases h : ms.length ≤ MAX_HOT_MEMORIES
    · rw [write_hot_memories_of_le ms h]; exact h
    · exact write_hot_memories_length_le ms (not_le.mp h)
  · intro ms hlen
    unfold write_hot_memories
    rw [if_pos (by exact hlen), List.countP_append]
    have key : ∀ (p2 u2 : List MemoryRecord),
        p2.length ≤ MAX_PINNED_MEMORIES →
        u2.countP (fun m => m.pinned) = 0 →
        p2.countP (fun m => m.pinned) + u2.countP (fun m => m.pinned)
          ≤ MAX_PINNED_MEMORIES := by
      intro p2 u2 h1 h2
      rw [h2, Nat.add_zero]
      exact le_trans (List.countP_le_length _) h1
    apply key
    · split
      next hgt => rw [List.length_drop]; omega
      next hle => omega
    · split <;> split <;>
        first
          | exact countP_pinned_eq_zero _ fun m hm =>
              pinned_false_of_mem_filter_not (List.mem_of_mem_drop hm)
          | exact countP_pinned_eq_zero _ fun m hm =>
              pinned_false_of_mem_filter_not hm

/-- C1 counterexample: an input of 51 pinned records is within the total
cap (51 ≤ 200), so `write_hot_memories` persists it unchanged and the
persisted store has 51 > 50 pinned records, contradicting the claimed
pinned-cap invariant. -/
theorem C1_write_all_counterexample :
    (write_hot_memories (List.replicate 51 pinnedSample)).length ≤ MAX_HOT_MEMORIES ∧
    ¬ ((write_hot_memories (List.replicate 51 pinnedSample)).countP
        (fun m => m.pinned) ≤ MAX_PINNED_MEMORIES) := by
  have h51 : (List.replicate 51 pinnedSample).length ≤ MAX_HOT_MEMORIES := by
    rw [List.length_replicate]; norm_num [MAX_HOT_MEMORIES]
  constructor
  · rw [write_hot_memories_of_le _ h51]; exact h51
  · rw [write_hot_memories_of_le _ h51]
    have hc : (List.replicate 51 pinnedSample).countP (fun m => m.pinned) = 51 := by
      rw [List.countP_eq_length.mpr]
      · exact List.length_replicate 51 _
      · intro a ha
        rw [List.eq_of_mem_replicate ha]
        rfl
    rw [hc]
    norm_num [MAX_PINNED_MEMORIES]

/-- C1 witness: both amended conjuncts instantiated on a concrete
201-record input. -/
theorem C1_write_all_capacity_witness :
    (write_hot_memories (List.replicate 201 plainSample)).length ≤ MAX_HOT_MEMORIES ∧
    (write_hot_memories (List.replicate 201 plainSample)).countP
      (fun m => m.pinned) ≤ MAX_PINNED_MEMORIES :=
  ⟨C1_write_all_capacity_amended.1 (List.replicate 201 plainSample),
   C1_write_all_capacity_amended.2 (List.replicate 201 plainSample)
     (by rw [List.length_replicate]; norm_num [MAX_HOT_MEMORIES])⟩

/-! ## Claim C10: write/read round trip below the total cap -/

theorem filterMap_parsed_map_line (lineBytes : MemoryRecord → Nat)
    (l : List MemoryRecord) :
    ((l.map fun m => ({ bytes := lineBytes m, parsed := some m } : StoreLine)).filterMap
      fun ln => ln.parsed) = l := by
  induction l with
  | nil => rfl
  | cons a t ih => simp [List.filterMap_cons, ih]

/-- C10 (amended): for any list of at most 200 records whose serialized
file stays within the 10MB read guard, `write_hot_memories` persists it
unchanged (no eviction, no reordering, no pinned-cap enforcement, no
normalization) and `read_hot_memories` parses the persisted lines back
to an equal list in the same order.  `lineBytes` abstracts the byte
length of one serialized JSONL line; a store whose file exceeds 10MB is
refused on read instead. -/
theorem C10_write_read_roundtrip_amended (lineBytes : MemoryRecord → Nat)
    (ms : List MemoryRecord) (hlen : ms.length ≤ MAX_HOT_MEMORIES)
    (hsize : (ms.map lineBytes).sum ≤ MAX_FILE_BYTES) :
    read_hot_memories ((write_hot_memories ms).map
        fun m => { bytes := lineBytes m, parsed := some m })
      = ms := by
  rw [write_hot_memories_of_le ms hlen]
  have hmaps : ((ms.map fun m =>
        ({ bytes := lineBytes m, parsed := some m } : StoreLine)).map
        fun ln => ln.bytes)
      = ms.map lineBytes := by
    rw [List.map_map]
    rfl
  unfold read_hot_memories
  rw [if_neg (by rw [hmaps]; omega)]
  exact filterMap_parsed_map_line lineBytes ms

/-- A fact one character longer than the 10MB read guard. -/
def bigFact : String :=
  String.mk (List.replicate (MAX_FILE_BYTES + 1) (Char.ofNat 97))

def bigRecord : MemoryRecord := { fact := bigFact }

theorem bigFact_length : bigFact.length = MAX_FILE_BYTES + 1 :=
  List.length_replicate _ _

/-- A one-line store file above the size limit is refused. -/
theorem read_oversized_singleton (b : Nat) (m : MemoryRecord)
    (hb : MAX_FILE_BYTES < b) :
    read_hot_memories [{ bytes := b, parsed := some m }] = [] := by
  have hsum : (([({ bytes := b, parsed := some m } : StoreLine)]).map
      fun ln => ln.bytes).sum = b := by
    simp
  have hcond : (([({ bytes := b, parsed := some m } : StoreLine)]).map
      fun ln => ln.bytes).sum > MAX_FILE_BYTES := by
    rw [hsum]
    exact hb
  unfold read_hot_memories
  rw [if_pos hcond]

/-- C10 counterexample: a single-record store (1 ≤ 200 records) whose
fact alone serializes past the 10MB guard — even counting only the fact
characters of the JSON line — is persisted unchanged by
`write_hot_memories`, but `read_hot_memories` refuses the oversized file
and returns the empty list, so the round trip does not return an equal
list. -/
theorem C10_write_read_counterexample :
    ([bigRecord] : List MemoryRecord).length ≤ MAX_HOT_MEMORIES ∧
    read_hot_memories ((write_hot_memories [bigRecord]).map
        fun m => { bytes := m.fact.length, parsed := some m })
      = [] ∧
    ([] : List MemoryRecord) ≠ [bigRecord] := by
  refine ⟨by norm_num [MAX_HOT_MEMORIES], ?_,
    (List.cons_ne_nil bigRecord []).symm⟩
  rw [write_hot_memories_of_le _ (by norm_num [MAX_HOT_MEMORIES])]
  have hmap : (([bigRecord] : List MemoryRecord).map
        fun m => ({ bytes := m.fact.length, parsed := some m } : StoreLine))
      = [{ bytes := bigRecord.fact.length, parsed := some bigRecord }] := rfl
  rw [hmap]
  refine read_oversized_singleton bigRecord.fact.length bigRecord ?_
  have hb : bigRecord.fact = bigFact := rfl
  rw [hb, bigFact_length]
  omega

/-- C10 witness: the amended round trip on a concrete two-record store
well inside the size guard. -/
theorem C10_write_read_roundtrip_witness :
    read_hot_memories ((write_hot_memories [pinnedSample, plainSample]).map
        fun m => { bytes := m.fact.length, parsed := some m })
      = [pinnedSample, plainSample] :=
  C10_write_read_roundtrip_amended (fun m => m.fact.length)
    [pinnedSample, plainSample] (by norm_num [MAX_HOT_MEMORIES]) (by decide)

/-! ## Claim C8: prune_invalidated removes exactly the parse-old records -/

/-- C8 (amended): on a store satisfying the 200-record capacity invariant,
`prune_invalidated` keeps exactly the records that are not prunable: a
record is removed iff its `t_invalid` is present, non-empty, parses, and
is older than the cutoff; records with absent, null, empty or unparsable
`t_invalid` are always kept, and the operation is total (never fails).
On an oversized store the shared write path additionally evicts oldest
records to restore the cap. -/
theorem C8_prune_keeps_unparsable_amended (parse : String → Option Int)
    (cutoff : Int) (ms : List MemoryRecord)
    (h : ms.length ≤ MAX_HOT_MEMORIES) :
    prune_invalidated parse cutoff ms
      = ms.filter fun m => !prunable parse cutoff m := by
  unfold prune_invalidated
  by_cases hc : ms.countP (prunable parse cutoff) > 0
  · rw [if_pos hc]
    exact write_hot_memories_of_le _
      (le_trans (List.length_filter_le _ _) h)
  · rw [if_neg hc]
    have h0 : ∀ a ∈ ms, ¬ (prunable parse cutoff a = true) :=
      List.countP_eq_zero.mp (Nat.le_zero.mp (not_lt.mp hc))
    symm
    rw [List.filter_eq_self]
    intro a ha
    simpa using h0 a ha

/-- A parse oracle for the C8 counterexample: only the literal string
"2020" parses (to instant 0). -/
def parseOnly2020 : String → Option Int :=
  fun s => if s = "2020" then some 0 else none

def validRecA : MemoryRecord := { fact := "a" }
def validRecB : MemoryRecord := { fact := "b" }
def invalidatedOldRec : MemoryRecord := { fact := "c", t_invalid := some "2020" }

/-- The C8 counterexample store: 202 records, one of which is prunable. -/
def cexPruneStore : List MemoryRecord :=
  validRecA :: (List.replicate 200 validRecB ++ [invalidatedOldRec])

set_option maxRecDepth 4000 in
/-- C8 counterexample: on an oversized (202-record) store, pruning the one
old-invalidated record leaves 201 records, and the shared write path then
evicts the oldest unpinned record `validRecA` even though its `t_invalid`
is null — so prune does not remove *exactly* the parse-old records. -/
theorem C8_prune_counterexample :
    validRecA.t_invalid = none ∧
    validRecA ∈ cexPruneStore ∧
    prunable parseOnly2020 10 validRecA = false ∧
    validRecA ∉ prune_invalidated parseOnly2020 10 cexPruneStore := by
  refine ⟨rfl, List.mem_cons_self _ _, rfl, ?_⟩
  intro hmem
  have : validRecA ∈ List.replicate 200 validRecB := by
    have heq : prune_invalidated parseOnly2020 10 cexPruneStore
        = List.replicate 200 validRecB := by decide
    rw [heq] at hmem
    exact hmem
  have := List.eq_of_mem_replicate this
  simp [validRecA, validRecB] at this

/-- C8 witness: the amended theorem instantiated on a concrete two-record
store containing one prunable and one unparsable record. -/
theorem C8_prune_keeps_unparsable_witness :
    prune_invalidated parseOnly2020 10
        [invalidatedOldRec, { fact := "d", t_invalid := some "not a date" }]
      = List.filter (fun m => !prunable parseOnly2020 10 m)
        [invalidatedOldRec, { fact := "d", t_invalid := some "not a date" }] :=
  C8_prune_keeps_unparsable_amended parseOnly2020 10 _
    (by norm_num [MAX_HOT_MEMORIES])

/-! ## Claim C6: invalidation is idempotent on the set of valid records -/

theorem markInvalid_fact (t n : String) (m : MemoryRecord) :
    (markInvalid t n m).fact = m.fact := by
  unfold markInvalid
  split <;> rfl

/-- Marking a list in which every matching record is already invalid does
not change the sublist of valid records. -/
theorem filter_valid_map_markInvalid (t n : String) (l : List MemoryRecord)
    (hl : ∀ m ∈ l, pyIn (pyLower t) (pyLower m.fact) = true → m.t_invalid ≠ none) :
    ((l.map (markInvalid t n)).filter fun m => m.t_invalid.isNone)
      = l.filter fun m => m.t_invalid.isNone := by
  induction l with
  | nil => rfl
  | cons a tl ih =>
    have htl : ∀ m ∈ tl, pyIn (pyLower t) (pyLower m.fact) = true → m.t_invalid ≠ none :=
      fun m hm => hl m (List.mem_cons_of_mem _ hm)
    simp only [List.map_cons, List.filter_cons]
    by_cases hp : pyIn (pyLower t) (pyLower a.fact) = true
    · have hinv : a.t_invalid ≠ none := hl a (List.mem_cons_self _ _) hp
      have h1 : markInvalid t n a = { a with t_invalid := some n } := by
        unfold markInvalid
        rw [if_pos hp]
      rw [h1, ih htl]
      have h3 : a.t_invalid.isNone = false := by
        cases hv : a.t_invalid with
        | none => exact absurd hv hinv
        | some s => rfl
      simp [h3]
    · have h1 : markInvalid t n a = a := by
        unfold markInvalid
        rw [if_neg hp]
      rw [h1, ih htl]

/-- Every record surviving the first invalidation whose fact matches the
target is already invalid. -/
theorem matching_invalid_after_mark (t n : String) (ms : List MemoryRecord) :
    ∀ m ∈ write_hot_memories (ms.map (markInvalid t n)),
      pyIn (pyLower t) (pyLower m.fact) = true → m.t_invalid ≠ none := by
  intro m hm hp
  have hm' := mem_of_mem_write_hot_memories hm
  rcases List.mem_map.mp hm' with ⟨a, _, rfl⟩
  rw [markInvalid_fact] at hp
  unfold markInvalid
  rw [if_pos hp]
  simp

theorem invalidate_hot_memory_pos (t n : String) (ms : List MemoryRecord)
    (h : ms.countP (fun m => pyIn (pyLower t) (pyLower m.fact)) > 0) :
    invalidate_hot_memory t n ms
      = write_hot_memories (ms.map (markInvalid t n)) := by
  unfold invalidate_hot_memory
  rw [if_pos h]

theorem invalidate_hot_memory_neg (t n : String) (ms : List MemoryRecord)
    (h : ¬ ms.countP (fun m => pyIn (pyLower t) (pyLower m.fact)) > 0) :
    invalidate_hot_memory t n ms = ms := by
  unfold invalidate_hot_memory
  rw [if_neg h]

/-- C6: for every store state, target text and pair of timestamps,
invalidating the same fact text twice leaves exactly the same sublist of
valid records (null `t_invalid`) as invalidating it once. -/
theorem C6_invalidate_idempotent (t n₁ n₂ : String) (ms : List MemoryRecord) :
    ((invalidate_hot_memory t n₂ (invalidate_hot_memory t n₁ ms)).filter
        fun m => m.t_invalid.isNone)
      = (invalidate_hot_memory t n₁ ms).filter fun m => m.t_invalid.isNone := by
  by_cases h1 : ms.countP (fun m => pyIn (pyLower t) (pyLower m.fact)) > 0
  · have hms1 := invalidate_hot_memory_pos t n₁ ms h1
    have hmatch : ∀ m ∈ invalidate_hot_memory t n₁ ms,
        pyIn (pyLower t) (pyLower m.fact) = true → m.t_invalid ≠ none := by
      rw [hms1]
      exact matching_invalid_after_mark t n₁ ms
    have hlen1 : (invalidate_hot_memory t n₁ ms).length ≤ MAX_HOT_MEMORIES := by
      rw [hms1]
      by_cases hl : ms.length ≤ MAX_HOT_MEMORIES
      · rw [write_hot_memories_of_le _ (by rw [List.length_map]; exact hl)]
        rw [List.length_map]
        exact hl
      · exact write_hot_memories_length_le _ (by rw [List.length_map]; omega)
    by_cases h2 : (invalidate_hot_memory t n₁ ms).countP
        (fun m => pyIn (pyLower t) (pyLower m.fact)) > 0
    · rw [invalidate_hot_memory_pos t n₂ _ h2,
        write_hot_memories_of_le _ (by rw [List.length_map]; exact hlen1)]
      exact filter_valid_map_markInvalid t n₂ _ hmatch
    · rw [invalidate_hot_memory_neg t n₂ _ h2]
  · have hms1 := invalidate_hot_memory_neg t n₁ ms h1
    rw [hms1, invalidate_hot_memory_neg t n₂ ms h1]

/-! ## Decay and reinforcement (hot_memory_store.py, memory-scorer.py) -/

/-- `compute_decay_strength`: FadeMem-style exponential decay with
importance-modulated rate, clamped to [0,1]; non-positive elapsed days
give 1.0. -/
noncomputable def compute_decay_strength (importance_normalized days_elapsed : ℝ) : ℝ :=
  let lambda_i := LAMBDA_BASE * Real.exp (-MU * importance_normalized)
  let beta := if importance_normalized ≥ PROMOTE_THRESHOLD then BETA_LTM else BETA_STM
  if days_elapsed ≤ 0 then 1.0
  else max 0.0 (min 1.0 (Real.exp (-lambda_i * days_elapsed ^ beta)))

/-- `reinforce_on_access` acting on the pair
(`decay_strength`, `access_count`): boost with diminishing returns, clamp
at 1.0, increment the access count. -/
noncomputable def reinforce_on_access (v : ℝ) (n : ℕ) : ℝ × ℕ :=
  (min 1.0 (v + REINFORCE_DELTA * (1.0 - v) * Real.exp (-(n : ℝ) / REINFORCE_N)),
   n + 1)

/-! ## Claim C5: decay monotonicity -/

theorem beta_pos (imp : ℝ) :
    0 < (if imp ≥ PROMOTE_THRESHOLD then BETA_LTM else BETA_STM) := by
  split <;> norm_num [BETA_LTM, BETA_STM]

theorem compute_decay_strength_le_one (imp d : ℝ) :
    compute_decay_strength imp d ≤ 1.0 := by
  unfold compute_decay_strength
  by_cases hd : d ≤ 0
  · rw [if_pos hd]
  · rw [if_neg hd]
    exact max_le (by norm_num) (min_le_left _ _)

/-- C5: for every fixed importance, `compute_decay_strength` is
non-increasing in elapsed days, and equals 1.0 for every non-positive
elapsed-days argument. -/
theorem C5_decay_monotone :
    (∀ imp d₁ d₂ : ℝ, d₁ < d₂ →
      compute_decay_strength imp d₂ ≤ compute_decay_strength imp d₁) ∧
    (∀ imp d : ℝ, d ≤ 0 → compute_decay_strength imp d = 1.0) := by
  constructor
  · intro imp d₁ d₂ h12
    by_cases h1 : d₁ ≤ 0
    · have : compute_decay_strength imp d₁ = 1.0 := by
        unfold compute_decay_strength
        rw [if_pos h1]
      rw [this]
      exact compute_decay_strength_le_one imp d₂
    · push_neg at h1
      have h2 : ¬ d₂ ≤ 0 := by linarith
      unfold compute_decay_strength
      rw [if_neg (not_le.mpr h1), if_neg h2]
      have hlam : 0 < LAMBDA_BASE * Real.exp (-MU * imp) :=
        mul_pos (by norm_num [LAMBDA_BASE]) (Real.exp_pos _)
      have hpow : d₁ ^ (if imp ≥ PROMOTE_THRESHOLD then BETA_LTM else BETA_STM)
          ≤ d₂ ^ (if imp ≥ PROMOTE_THRESHOLD then BETA_LTM else BETA_STM) :=
        Real.rpow_le_rpow (le_of_lt h1) (le_of_lt h12) (le_of_lt (beta_pos imp))
      have hexp : Real.exp (-(LAMBDA_BASE * Real.exp (-MU * imp)) *
            d₂ ^ (if imp ≥ PROMOTE_THRESHOLD then BETA_LTM else BETA_STM))
          ≤ Real.exp (-(LAMBDA_BASE * Real.exp (-MU * imp)) *
            d₁ ^ (if imp ≥ PROMOTE_THRESHOLD then BETA_LTM else BETA_STM)) := by
        apply Real.exp_le_exp.mpr
        nlinarith
      exact max_le_max le_rfl (min_le_min le_rfl hexp)
  · intro imp d hd
    unfold compute_decay_strength
    rw [if_pos hd]

/-- C5 witness: monotonicity instantiated at days 0 and 30 with
importance 0.6, and the plateau at a negative elapsed time. -/
theorem C5_decay_monotone_witness :
    compute_decay_strength 0.6 30 ≤ compute_decay_strength 0.6 0 ∧
    compute_decay_strength 0.6 (-1) = 1.0 :=
  ⟨C5_decay_monotone.1 0.6 0 30 (by norm_num),
   C5_decay_monotone.2 0.6 (-1) (by norm_num)⟩

/-! ## Claim C2: reinforcement boost, bound and diminishing increments -/

/-- The reinforcement boost term
`REINFORCE_DELTA * (1 - v) * exp(-n / REINFORCE_N)`. -/
noncomputable def reinforceBoost (v : ℝ) (n : ℕ) : ℝ :=
  REINFORCE_DELTA * (1.0 - v) * Real.exp (-(n : ℝ) / REINFORCE_N)

theorem reinforce_on_access_fst (v : ℝ) (n : ℕ) :
    (reinforce_on_access v n).1 = min 1.0 (v + reinforceBoost v n) := rfl

theorem reinforceBoost_pos {v : ℝ} (hv : v < 1) (n : ℕ) :
    0 < reinforceBoost v n := by
  unfold reinforceBoost
  have h1 : (0 : ℝ) < REINFORCE_DELTA := by norm_num [REINFORCE_DELTA]
  have h2 : (0 : ℝ) < 1.0 - v := by norm_num; linarith
  exact mul_pos (mul_pos h1 h2) (Real.exp_pos _)

theorem reinforce_step_lt_one {v : ℝ} (hv0 : 0 ≤ v) (hv1 : v < 1) (n : ℕ) :
    v + reinforceBoost v n < 1 := by
  have hexp : Real.exp (-(n : ℝ) / REINFORCE_N) ≤ 1 := by
    rw [Real.exp_le_one_iff]
    apply div_nonpos_of_nonpos_of_nonneg
    · simp
    · norm_num [REINFORCE_N]
  have hd : (0 : ℝ) < REINFORCE_DELTA := by norm_num [REINFORCE_DELTA]
  have hd1 : REINFORCE_DELTA < 1 := by norm_num [REINFORCE_DELTA]
  have h2 : (0 : ℝ) < 1.0 - v := by norm_num; linarith
  have key : reinforceBoost v n ≤ REINFORCE_DELTA * (1.0 - v) := by
    unfold reinforceBoost
    exact mul_le_of_le_one_right (le_of_lt (mul_pos hd h2)) hexp
  have key2 : REINFORCE_DELTA * (1.0 - v) < 1.0 - v :=
    mul_lt_of_lt_one_left h2 hd1
  linarith

/-- The boost strictly decreases when the strength grows and the access
count grows. -/
theorem reinforceBoost_strict_anti {v w : ℝ} (hvw : v < w) (hw1 : w ≤ 1)
    (n m : ℕ) (hnm : n < m) :
    reinforceBoost w m < reinforceBoost v n := by
  have h5 : (0 : ℝ) < REINFORCE_N := by norm_num [REINFORCE_N]
  have he : Real.exp (-(m : ℝ) / REINFORCE_N)
      < Real.exp (-(n : ℝ) / REINFORCE_N) := by
    apply Real.exp_lt_exp.mpr
    rw [div_lt_div_iff h5 h5]
    have hc : (n : ℝ) < m := by exact_mod_cast hnm
    nlinarith
  have hd : (0 : ℝ) < REINFORCE_DELTA := by norm_num [REINFORCE_DELTA]
  have hBA : 1.0 - w < 1.0 - v := by linarith
  have hB0 : (0 : ℝ) ≤ 1.0 - w := by norm_num; linarith
  have step1 : (1.0 - w) * Real.exp (-(m : ℝ) / REINFORCE_N)
      < (1.0 - v) * Real.exp (-(n : ℝ) / REINFORCE_N) :=
    mul_lt_mul'' hBA he hB0 (le_of_lt (Real.exp_pos _))
  unfold reinforceBoost
  calc REINFORCE_DELTA * (1.0 - w) * Real.exp (-(m : ℝ) / REINFORCE_N)
      = REINFORCE_DELTA * ((1.0 - w) * Real.exp (-(m : ℝ) / REINFORCE_N)) := by
        ring
    _ < REINFORCE_DELTA * ((1.0 - v) * Real.exp (-(n : ℝ) / REINFORCE_N)) :=
        (mul_lt_mul_left hd).mpr step1
    _ = REINFORCE_DELTA * (1.0 - v) * Real.exp (-(n : ℝ) / REINFORCE_N) := by
        ring

/-- C2 (amended): reinforcement sets `decay_strength` to
`min(1.0, v + 0.15*(1-v)*exp(-n/5))`, which never exceeds 1.0 for any
input; and for every record with `decay_strength` v in [0,1) — i.e. not
already saturated at 1.0 — two successive reinforcements strictly
increase the strength by strictly decreasing increments.  (At v = 1 both
increments are zero, so the strictness in the original claim fails
there.) -/
theorem C2_reinforce_diminishing_amended :
    (∀ (v : ℝ) (n : ℕ),
      (reinforce_on_access v n).1 = min 1.0 (v + reinforceBoost v n) ∧
      (reinforce_on_access v n).1 ≤ 1.0) ∧
    (∀ (v : ℝ) (n : ℕ), 0 ≤ v → v < 1 →
      v < (reinforce_on_access v n).1 ∧
      (reinforce_on_access v n).1
        < (reinforce_on_access (reinforce_on_access v n).1 (n + 1)).1 ∧
      (reinforce_on_access (reinforce_on_access v n).1 (n + 1)).1 ≤ 1.0 ∧
      (reinforce_on_access (reinforce_on_access v n).1 (n + 1)).1
          - (reinforce_on_access v n).1
        < (reinforce_on_access v n).1 - v) := by
  constructor
  · intro v n
    exact ⟨rfl, min_le_left _ _⟩
  · intro v n hv0 hv1
    have hb1 : 0 < reinforceBoost v n := reinforceBoost_pos hv1 n
    have hlt1 : v + reinforceBoost v n < 1 := reinforce_step_lt_one hv0 hv1 n
    have hv1' : (reinforce_on_access v n).1 = v + reinforceBoost v n := by
      rw [reinforce_on_access_fst]
      exact min_eq_right (by norm_num; linarith)
    have hw0 : 0 ≤ v + reinforceBoost v n := by linarith
    have hb2 : 0 < reinforceBoost (v + reinforceBoost v n) (n + 1) :=
      reinforceBoost_pos hlt1 (n + 1)
    have hlt2 : (v + reinforceBoost v n)
        + reinforceBoost (v + reinforceBoost v n) (n + 1) < 1 :=
      reinforce_step_lt_one hw0 hlt1 (n + 1)
    have hv2' : (reinforce_on_access (v + reinforceBoost v n) (n + 1)).1
        = (v + reinforceBoost v n)
          + reinforceBoost (v + reinforceBoost v n) (n + 1) := by
      rw [reinforce_on_access_fst]
      exact min_eq_right (by norm_num; linarith)
    have hdecr : reinforceBoost (v + reinforceBoost v n) (n + 1)
        < reinforceBoost v n :=
      reinforceBoost_strict_anti (by linarith) (le_of_lt hlt1) n (n + 1)
        (Nat.lt_succ_self n)
    refine ⟨?_, ?_, ?_, ?_⟩
    · rw [hv1']; linarith
    · rw [hv1', hv2']; linarith
    · rw [hv1', hv2']; norm_num; linarith
    · rw [hv1', hv2']; linarith

/-- C2 witness: both conjuncts instantiated at v = 0.5, n = 0. -/
theorem C2_reinforce_diminishing_witness :
    ((reinforce_on_access 0.5 0).1 = min 1.0 (0.5 + reinforceBoost 0.5 0) ∧
      (reinforce_on_access 0.5 0).1 ≤ 1.0) ∧
    ((0.5 : ℝ) < (reinforce_on_access 0.5 0).1 ∧
      (reinforce_on_access 0.5 0).1
        < (reinforce_on_access (reinforce_on_access 0.5 0).1 (0 + 1)).1 ∧
      (reinforce_on_access (reinforce_on_access 0.5 0).1 (0 + 1)).1 ≤ 1.0 ∧
      (reinforce_on_access (reinforce_on_access 0.5 0).1 (0 + 1)).1
          - (reinforce_on_access 0.5 0).1
        < (reinforce_on_access 0.5 0).1 - 0.5) :=
  ⟨C2_reinforce_diminishing_amended.1 0.5 0,
   C2_reinforce_diminishing_amended.2 0.5 0 (by norm_num) (by norm_num)⟩

/-- C2 counterexample: for a record already saturated at
`decay_strength = 1.0`, both successive reinforcement increments are
zero, so the second increment is not strictly smaller than the first and
the strength does not strictly increase. -/
theorem C2_reinforce_counterexample :
    (reinforce_on_access 1.0 0).1 = 1.0 ∧
    (reinforce_on_access (reinforce_on_access 1.0 0).1 (0 + 1)).1 = 1.0 ∧
    ¬ ((reinforce_on_access (reinforce_on_access 1.0 0).1 (0 + 1)).1
          - (reinforce_on_access 1.0 0).1
        < (reinforce_on_access 1.0 0).1 - 1.0) ∧
    ¬ ((1.0 : ℝ) < (reinforce_on_access 1.0 0).1) := by
  have h1 : (reinforce_on_access 1.0 0).1 = 1.0 := by
    rw [reinforce_on_access_fst]
    unfold reinforceBoost
    norm_num
  have h2 : (reinforce_on_access (1.0 : ℝ) (0 + 1)).1 = 1.0 := by
    rw [reinforce_on_access_fst]
    unfold reinforceBoost
    norm_num
  refine ⟨h1, ?_, ?_, ?_⟩
  · rw [h1]; exact h2
  · rw [h1, h2]; norm_num
  · rw [h1]; norm_num

/-! ## Extraction pipeline data model (memory-extractor.py) -/

/-- A candidate fact produced by the extraction call (the dict
`{fact, category, importance, entities, temporal}`; absent keys are
`none`). -/
structure Candidate where
  fact : String := ""
  category : Option String := none
  importance : Option Int := none
  entities : List String := []
  temporal : Option String := none
  deriving Repr, DecidableEq

/-- The reconciliation dict parsed from the reasoning response
(`result.get(...)` defaults are applied at the use sites). -/
structure ReconcileResult where
  operation : Option String := none
  reason : Option String := none
  updated_fact : Option String := none
  delete_target : Option String := none
  deriving Repr, DecidableEq

/-- Outcome of `call_claude` + `parse_claude_json` for one reconciliation
call: the call returned an empty response, the response did not parse,
or it parsed to a result dict. -/
inductive ReconcileResponse where
  | apiFailure
  | parseFailure
  | parsed (result : ReconcileResult)
  deriving Repr, DecidableEq

/-- `reconcile_fact`: with no existing evidence, default to ADD without a
reasoning call; otherwise consult the response, falling back to
ADD-with-fallback-reason on an empty or unparsable response. -/
def reconcile_fact (existing : List String) (resp : ReconcileResponse) :
    ReconcileResult :=
  if existing.isEmpty then
    { operation := some "ADD", reason := some "no existing memories found" }
  else
    match resp with
    | .apiFailure => { operation := some "ADD", reason := some "API fallback" }
    | .parseFailure => { operation := some "ADD", reason := some "parse fallback" }
    | .parsed r => r

/-- `build_memory_metadata`: full decay/validity metadata for a new
record.  `round(importance/10.0, 2)` is the identity on these one-decimal
values, and the 0.7 layer threshold is `PROMOTE_THRESHOLD`. -/
def build_memory_metadata (now_iso : String) (c : Candidate) : MemoryRecord :=
  let importance := c.importance.getD 5
  { fact := ""
    category := some (c.category.getD "general")
    importance := some importance
    importance_normalized := some ((importance : ℚ) / 10)
    created_at := some now_iso
    last_accessed := some now_iso
    access_count := some 0
    decay_strength := some 1
    decay_layer := some (if (importance : ℚ) / 10 ≥ 7 / 10 then "ltm" else "stm")
    t_valid := some (c.temporal.getD now_iso)
    t_invalid := none
    source := some "hot-path-extractor"
    entities := c.entities
    pinned := false }

/-- Python `text.lower().split()` as a deduplicated word list (the source
builds a `set`). -/
def pyWords (s : String) : List String :=
  (pySplit (pyLower s)).dedup

/-- Entity-enrichment fallback: capitalized words of the fact text,
excluding a stop set. -/
def capitalizedWords (s : String) : List String :=
  (pySplit s).filter fun w =>
    w.length > 1 &&
      (match w.toList with
        | [] => false
        | ch :: _ => ch.isUpper) &&
      !(w = "The" || w = "This" || w = "That" || w = "User")

/-- `validate_candidate`: quality gate (length, not a question), 60%
word-overlap duplicate pre-check against existing hot facts, and entity
enrichment.  `overlap / smaller > 0.6` is stated as
`10 * overlap > 6 * smaller`.  Returns (keep, possibly-enriched
candidate). -/
def validate_candidate (existing_hot_facts : List String) (c : Candidate) :
    Bool × Candidate :=
  let fact_text := pyStrip c.fact
  if fact_text.length < MIN_FACT_LENGTH then (false, c)
  else if endsWithQmark fact_text then (false, c)
  else
    let fact_words := pyWords fact_text
    if existing_hot_facts.any fun existing =>
        let existing_words := pyWords existing
        !fact_words.isEmpty && !existing_words.isEmpty &&
          decide (10 * (fact_words.countP fun w => decide (w ∈ existing_words))
            > 6 * min fact_words.length existing_words.length) then
      (false, c)
    else
      let c' :=
        if c.entities.isEmpty then
          let enriched := capitalizedWords fact_text
          if !enriched.isEmpty then { c with entities := enriched.take 5 } else c
        else c
      (true, c')

/-- `_count_recent_additions`: records whose `created_at` string compares
greater than the one-hour-ago ISO string. -/
def count_recent_additions (one_hour_ago : String)
    (memories : List MemoryRecord) : Nat :=
  memories.countP fun m => decide (one_hour_ago < m.created_at.getD "")

/-- The remaining hourly budget `max(0, MAX_ADDITIONS_PER_HOUR - recent)`. -/
def rateLimitBudget (recent_adds : Nat) : Int :=
  max 0 (MAX_ADDITIONS_PER_HOUR - recent_adds)

/-- The rate-limit truncation `validated = validated[:budget]` applied
when the validated list exceeds the budget. -/
def truncateToBudget (budget : Int) (validated : List Candidate) :
    List Candidate :=
  if (validated.length : Int) > budget then validated.take budget.toNat
  else validated

/-- The candidates that reach the reconciliation loop, given the recent
addition count: the run returns early when the budget is zero, otherwise
the validated list is truncated to the budget. -/
def candidatesForReconciliation (recent_adds : Nat)
    (validated : List Candidate) : List Candidate :=
  if rateLimitBudget recent_adds = 0 then []
  else truncateToBudget (rateLimitBudget recent_adds) validated

/-- Mutable per-run counters and the evolving store of the reconciliation
loop. -/
structure LoopState where
  store : List MemoryRecord
  added : Nat := 0
  updated : Nat := 0
  deleted : Nat := 0
  skipped : Nat := 0
  errors : Nat := 0
  deriving Repr, DecidableEq

/-- Per-run inputs and external-collaborator oracles of `run_extraction`:
`logs` is the activity query result (`none` = hard failure),
`extraction` the extraction-call result (`none` = API/parse failure),
`evidenceFor` models `search_existing_memories` and `responseFor` the
per-candidate reconciliation call. -/
structure RunInputs where
  dryRun : Bool
  force : Bool
  diskOk : Bool
  markerRecent : Bool
  logs : Option String
  extraction : Option (List Candidate)
  store : List MemoryRecord
  nowIso : String
  oneHourAgoIso : String
  evidenceFor : Candidate → List String
  responseFor : Candidate → ReconcileResponse

/-- One iteration of the Phase-3 reconciliation loop. -/
def reconcileStep (inp : RunInputs) (s : LoopState) (c : Candidate) :
    LoopState :=
  let fact_text := pyStrip c.fact
  if fact_text = "" then s
  else
    let result := reconcile_fact (inp.evidenceFor c) (inp.responseFor c)
    let operation := result.operation.getD "NOOP"
    let reason := result.reason.getD ""
    let is_api_fallback := reason = "API fallback" || reason = "parse fallback"
    if operation = "ADD" then
      if is_api_fallback then { s with errors := s.errors + 1 }
      else if inp.dryRun then { s with added := s.added + 1 }
      else
        { s with
          store := append_hot_memory fact_text (build_memory_metadata inp.nowIso c) s.store
          added := s.added + 1 }
    else if operation = "UPDATE" then
      let updated_text := result.updated_fact.getD fact_text
      let metadata :=
        { build_memory_metadata inp.nowIso c with updated_from := some fact_text }
      if inp.dryRun then { s with updated := s.updated + 1 }
      else
        { s with
          store := update_hot_memory fact_text updated_text metadata inp.nowIso s.store
          updated := s.updated + 1 }
    else if operation = "DELETE" then
      let delete_target := result.delete_target.getD ""
      if inp.dryRun then { s with deleted := s.deleted + 1 }
      else if delete_target ≠ "" then
        { s with
          store := invalidate_hot_memory delete_target inp.nowIso s.store
          deleted := s.deleted + 1 }
      else { s with deleted := s.deleted + 1 }
    else { s with skipped := s.skipped + 1 }

/-- Outcome of one pipeline invocation: the resulting store, whether the
marker was written, and the run counters. -/
structure RunResult where
  store : List MemoryRecord
  markerAdvanced : Bool
  added : Nat := 0
  updated : Nat := 0
  deleted : Nat := 0
  skipped : Nat := 0
  errors : Nat := 0
  deriving Repr, DecidableEq

/-- `run_extraction`: disk guard, minimum-interval marker guard, activity
query, extraction, importance filter, validation, rate limit,
reconciliation loop, marker-advancement decision.  The early
no-work branches write the marker unconditionally (as in the source,
even in dry-run mode); the final decision writes it only on a
non-dry-run with zero errors. -/
def run_extraction (inp : RunInputs) : RunResult :=
  if !inp.diskOk then { store := inp.store, markerAdvanced := false }
  else if !inp.force && inp.markerRecent then
    { store := inp.store, markerAdvanced := false }
  else
    match inp.logs with
    | none => { store := inp.store, markerAdvanced := false }
    | some logs =>
      if logs = "" then { store := inp.store, markerAdvanced := true }
      else
        match inp.extraction with
        | none => { store := inp.store, markerAdvanced := false }
        | some candidates =>
          if candidates.isEmpty then { store := inp.store, markerAdvanced := true }
          else
            let hot_candidates := candidates.filter fun c =>
              c.importance.getD 0 ≥ HOT_PATH_IMPORTANCE_THRESHOLD
            if hot_candidates.isEmpty then
              { store := inp.store, markerAdvanced := true }
            else
              let existing_hot_facts :=
                (inp.store.filter fun m =>
                  !tInvalidTruthy m.t_invalid && m.fact ≠ "").map fun m => m.fact
              let validated := hot_candidates.filterMap fun c =>
                let r := validate_candidate existing_hot_facts c
                if r.1 then some r.2 else none
              if validated.isEmpty then
                { store := inp.store, markerAdvanced := true }
              else
                let recent_adds := count_recent_additions inp.oneHourAgoIso inp.store
                let budget := rateLimitBudget recent_adds
                if budget = 0 then { store := inp.store, markerAdvanced := true }
                else
                  let validated2 := truncateToBudget budget validated
                  let final := validated2.foldl (reconcileStep inp)
                    { store := inp.store }
                  { store := final.store
                    markerAdvanced :=
                      if inp.dryRun then false else decide (final.errors = 0)
                    added := final.added
                    updated := final.updated
                    deleted := final.deleted
                    skipped := final.skipped
                    errors := final.errors }

/-! ## Claim C7: rate-limit truncation -/

def candRed : Candidate :=
  { fact := "Sunil prefers the color red for interfaces", importance := some 6 }

def candTea : Candidate :=
  { fact := "Sunil drinks green tea every single morning", importance := some 6 }

def candRuns : Candidate :=
  { fact := "Sunil runs five kilometers twice a week", importance := some 6 }

/-- C7: the candidate list that reaches reconciliation is the first
`max(0, 5 - R)` validated candidates, where R is the number of records
created in the trailing hour (Nat subtraction is exactly
`max(0, 5 - R)`); in particular with R = 4 and three validated
candidates, exactly one proceeds. -/
theorem C7_rate_limit_truncation :
    (∀ (recent_adds : Nat) (validated : List Candidate),
      candidatesForReconciliation recent_adds validated
        = validated.take (MAX_ADDITIONS_PER_HOUR.toNat - recent_adds)) ∧
    (candidatesForReconciliation 4 [candRed, candTea, candRuns]).length = 1 := by
  constructor
  · intro recent_adds validated
    unfold candidatesForReconciliation rateLimitBudget truncateToBudget
    have h5 : MAX_ADDITIONS_PER_HOUR = (5 : Int) := rfl
    have h5n : MAX_ADDITIONS_PER_HOUR.toNat = 5 := rfl
    rw [h5n, h5]
    by_cases hR : 5 ≤ recent_adds
    · have hb : max 0 ((5 : Int) - recent_adds) = 0 :=
        max_eq_left (by omega)
      rw [hb, if_pos rfl]
      have h0 : 5 - recent_adds = 0 := by omega
      rw [h0, List.take_zero]
    · push_neg at hR
      have hb : max 0 ((5 : Int) - recent_adds) = 5 - recent_adds :=
        max_eq_right (by omega)
      rw [hb, if_neg (by omega)]
      have htn : ((5 : Int) - recent_adds).toNat = 5 - recent_adds := by omega
      by_cases hlen : (validated.length : Int) > 5 - recent_adds
      · rw [if_pos hlen, htn]
      · rw [if_neg hlen]
        push_neg at hlen
        exact (List.take_of_length_le (by omega)).symm
  · decide

/-! ## Claim C3: fail-closed reconciliation -/

theorem reconcileStep_errors_le (inp : RunInputs) (s : LoopState)
    (c : Candidate) : s.errors ≤ (reconcileStep inp s c).errors := by
  simp only [reconcileStep]
  split_ifs <;> simp

theorem foldl_reconcileStep_errors_le (inp : RunInputs)
    (cs : List Candidate) (s : LoopState) :
    s.errors ≤ (cs.foldl (reconcileStep inp) s).errors := by
  induction cs generalizing s with
  | nil => exact le_rfl
  | cons c tl ih =>
    exact le_trans (reconcileStep_errors_le inp s c) (ih _)

/-- C3 (amended): for a candidate *with* prior evidence whose
reconciliation call failed (empty response) or returned an unparsable
response, the loop step only increments the error counter — the store is
untouched, so the candidate is never appended — and any run whose
reconciliation loop processes such a candidate ends with a non-zero
error count.  (A candidate with *no* prior evidence is ADDed by default
without any reasoning call, so the original claim does not apply to
it.) -/
theorem C3_fail_closed_amended (inp : RunInputs) (s : LoopState)
    (c : Candidate) (hfact : pyStrip c.fact ≠ "")
    (hev : inp.evidenceFor c ≠ [])
    (hresp : inp.responseFor c = ReconcileResponse.apiFailure ∨
      inp.responseFor c = ReconcileResponse.parseFailure) :
    reconcileStep inp s c = { s with errors := s.errors + 1 } ∧
    (∀ cs : List Candidate, c ∈ cs →
      0 < (cs.foldl (reconcileStep inp) s).errors) := by
  have hne : (inp.evidenceFor c).isEmpty = false := by
    cases h : inp.evidenceFor c with
    | nil => exact absurd h hev
    | cons a l => rfl
  have hstep : ∀ s' : LoopState,
      reconcileStep inp s' c = { s' with errors := s'.errors + 1 } := by
    intro s'
    unfold reconcileStep reconcile_fact
    rw [if_neg hfact, hne]
    rcases hresp with h | h <;> rw [h] <;> simp
  refine ⟨hstep s, ?_⟩
  intro cs hc
  obtain ⟨l1, l2, rfl⟩ := List.append_of_mem hc
  rw [List.foldl_append, List.foldl_cons, hstep (l1.foldl (reconcileStep inp) s)]
  have hfin := foldl_reconcileStep_errors_le inp l2
    { l1.foldl (reconcileStep inp) s with
      errors := (l1.foldl (reconcileStep inp) s).errors + 1 }
  have h0 : (0 : ℕ) < ({ l1.foldl (reconcileStep inp) s with
      errors := (l1.foldl (reconcileStep inp) s).errors + 1 } : LoopState).errors :=
    Nat.succ_pos _
  exact lt_of_lt_of_le h0 hfin

/-- A high-importance candidate that passes validation. -/
def candPurple : Candidate :=
  { fact := "Sunil favorite color is purple", category := some "preference",
    importance := some 7, entities := ["Sunil"] }

/-- A run in which the only candidate has no prior evidence and the
reconciliation oracle would return an unparsable response. -/
def cexNoEvidenceInputs : RunInputs :=
  { dryRun := false, force := false, diskOk := true, markerRecent := false,
    logs := some "recent agent activity", extraction := some [candPurple],
    store := [], nowIso := "2026-02-12T00:00:00+00:00",
    oneHourAgoIso := "2026-02-11T23:00:00+00:00",
    evidenceFor := fun _ => [],
    responseFor := fun _ => ReconcileResponse.parseFailure }

/-- C3 counterexample: a candidate with no prior evidence and an
unparsable reconciliation response IS appended to the store (the code
defaults to ADD without consulting the reasoning service), the run ends
with zero errors, and the marker advances — contradicting the claimed
fail-closed behaviour for a no-evidence candidate. -/
theorem C3_fail_closed_counterexample :
    (run_extraction cexNoEvidenceInputs).errors = 0 ∧
    ((run_extraction cexNoEvidenceInputs).store.map fun m => m.fact)
      = ["Sunil favorite color is purple"] ∧
    (run_extraction cexNoEvidenceInputs).markerAdvanced = true := by
  refine ⟨?_, ?_, ?_⟩ <;> decide

/-- Loop state and inputs for the C3 witness: one candidate with prior
evidence and an unparsable response. -/
def witC3Inputs : RunInputs :=
  { cexNoEvidenceInputs with
    evidenceFor := fun _ => ["Sunil already likes the color blue"] }

/-- C3 witness: the amended theorem instantiated on a candidate with
prior evidence and an unparsable response, inside a one-candidate loop. -/
theorem C3_fail_closed_witness :
    reconcileStep witC3Inputs { store := [] } candPurple
      = { store := ([] : List MemoryRecord), errors := 0 + 1 } ∧
    0 < (([candPurple]).foldl (reconcileStep witC3Inputs)
      { store := [] }).errors :=
  ⟨(C3_fail_closed_amended witC3Inputs { store := [] } candPurple
      (by decide) (by decide) (Or.inr rfl)).1,
   (C3_fail_closed_amended witC3Inputs { store := [] } candPurple
      (by decide) (by decide) (Or.inr rfl)).2 [candPurple]
      (List.mem_singleton.mpr rfl)⟩

/-! ## Claim C4: marker advancement only on zero-error runs -/

/-- C4: in a non-dry-run invocation, the marker is advanced only when the
run produced zero extraction/reconciliation errors; a failed activity
query (`logs = none`), a failed or unparsable extraction call
(`extraction = none` with non-empty logs), or a non-zero error count all
leave the marker untouched. -/
theorem C4_marker_advancement (inp : RunInputs) (hdry : inp.dryRun = false) :
    ((run_extraction inp).markerAdvanced = true → (run_extraction inp).errors = 0) ∧
    (inp.logs = none → (run_extraction inp).markerAdvanced = false) ∧
    (∀ s, inp.logs = some s → s ≠ "" → inp.extraction = none →
      (run_extraction inp).markerAdvanced = false) ∧
    (0 < (run_extraction inp).errors →
      (run_extraction inp).markerAdvanced = false) := by
  have hmain : (run_extraction inp).markerAdvanced = true →
      (run_extraction inp).errors = 0 := by
    unfold run_extraction
    simp only [hdry]
    split
    · intro h; exact absurd h (by simp)
    · split
      · intro h; exact absurd h (by simp)
      · split
        · intro h; exact absurd h (by simp)
        · split
          · intro _; rfl
          · split
            · intro h; exact absurd h (by simp)
            · split
              · intro _; rfl
              · split
                · intro _; rfl
                · split
                  · intro _; rfl
                  · split
                    · intro _; rfl
                    · simp
  refine ⟨hmain, ?_, ?_, ?_⟩
  · intro hlogs
    unfold run_extraction
    rw [hlogs]
    split
    · rfl
    · split
      · rfl
      · rfl
  · intro s hlogs hne hext
    unfold run_extraction
    rw [hlogs, hext]
    split
    · rfl
    · split
      · rfl
      · simp [hne]
  · intro herr
    cases hadv : (run_extraction inp).markerAdvanced with
    | false => rfl
    | true => exact absurd (hmain hadv) (by omega)

/-- A concrete non-dry-run invocation whose activity query failed. -/
def witC4Inputs : RunInputs :=
  { cexNoEvidenceInputs with logs := none }

/-- C4 witness: the theorem instantiated on a concrete non-dry-run
invocation. -/
theorem C4_marker_advancement_witness :
    ((run_extraction witC4Inputs).markerAdvanced = true →
      (run_extraction witC4Inputs).errors = 0) ∧
    (witC4Inputs.logs = none →
      (run_extraction witC4Inputs).markerAdvanced = false) ∧
    (∀ s, witC4Inputs.logs = some s → s ≠ "" → witC4Inputs.extraction = none →
      (run_extraction witC4Inputs).markerAdvanced = false) ∧
    (0 < (run_extraction witC4Inputs).errors →
      (run_extraction witC4Inputs).markerAdvanced = false) :=
  C4_marker_advancement witC4Inputs rfl

/-! ## Claim C9: the Quality Linter exit-code model (memory-linter.py) -/

/-- The exit-code decision of the linter `main` (lines 499-556):
`memoriesEmpty` is the `not memories` early path (missing store file or
empty store), `totalIssues` the report total, `postFixIssues` the
re-lint total after `--fix` repairs. -/
def linter_exit_code (memoriesEmpty strict fix : Bool)
    (totalIssues postFixIssues : Nat) : Nat :=
  if memoriesEmpty then 0
  else if strict ∧ 0 < totalIssues then
    if fix then (if 0 < postFixIssues then 1 else 0) else 1
  else 0

/-- C9 (amended): the linter exits 0 when the store is clean; when issues
are present it exits 1 only under `--strict` (and, with `--fix`, only if
issues remain after repair); a missing or empty store exits 0; and no
code path exits 2 — there is no distinct critical exit code. -/
theorem C9_linter_exit_codes_amended :
    (∀ strict fix totalIssues postFixIssues,
      linter_exit_code true strict fix totalIssues postFixIssues = 0) ∧
    (∀ strict fix postFixIssues,
      linter_exit_code false strict fix 0 postFixIssues = 0) ∧
    (∀ fix totalIssues postFixIssues,
      linter_exit_code false false fix totalIssues postFixIssues = 0) ∧
    (∀ totalIssues postFixIssues, 0 < totalIssues →
      linter_exit_code false true false totalIssues postFixIssues = 1) ∧
    (∀ totalIssues postFixIssues, 0 < totalIssues →
      linter_exit_code false true true totalIssues postFixIssues
        = if 0 < postFixIssues then 1 else 0) ∧
    (∀ memoriesEmpty strict fix totalIssues postFixIssues,
      linter_exit_code memoriesEmpty strict fix totalIssues postFixIssues ≠ 2) := by
  refine ⟨?_, ?_, ?_, ?_, ?_, ?_⟩
  · intro strict fix t p
    rfl
  · intro strict fix p
    unfold linter_exit_code
    simp
  · intro fix t p
    unfold linter_exit_code
    simp
  · intro t p ht
    unfold linter_exit_code
    simp [ht]
  · intro t p ht
    unfold linter_exit_code
    simp [ht]
  · intro e strict fix t p
    unfold linter_exit_code
    split
    · omega
    · split
      · split
        · split <;> omega
        · omega
      · omega

/-- C9 counterexample: a store with issues present exits 0 when `--strict`
is not given (the claim says 1), and a missing store file exits 0 (the
claim says 2). -/
theorem C9_linter_exit_codes_counterexample :
    linter_exit_code false false false 3 0 = 0 ∧
    linter_exit_code true false false 0 0 = 0 := by
  exact ⟨rfl, rfl⟩

/-- C9 witness: the strict-mode conjuncts instantiated at three issues. -/
theorem C9_linter_exit_codes_witness :
    linter_exit_code false true false 3 0 = 1 ∧
    linter_exit_code false true true 3 0 = if 0 < (0 : Nat) then 1 else 0 :=
  ⟨C9_linter_exit_codes_amended.2.2.2.1 3 0 (by norm_num),
   C9_linter_exit_codes_amended.2.2.2.2.1 3 0 (by norm_num)⟩
